import Mathlib

/-!
Verification of the moto message-queue emulator against its specification.

Sources embedded here:
- src/moto/sqs/responses.py : the SQS response layer (validation, batch
  entry collection, error selection).
- src/moto/efs/models.py : the EFS backend (file systems, mount targets,
  description paging).

The SQS backend (moto/sqs/models.py) is not part of the source tree; where
its behaviour decides a claim it is modelled from the specification, and
each such definition carries a doc comment starting with
"Modelled from the spec:".
-/

namespace Moto

/-- Maximum message body length in bytes. moto/sqs/constants.py is not under
src/, but the value 262144 appears verbatim in ERROR_TOO_LONG_RESPONSE of
src/moto/sqs/responses.py. -/
def MAXIMUM_MESSAGE_LENGTH : Nat := 262144

/-- Modelled from the spec: moto/sqs/constants.py is not under src/. The
system maximum visibility timeout, 12 hours in seconds, as rendered into
ERROR_MAX_VISIBILITY_TIMEOUT_RESPONSE of src/moto/sqs/responses.py. -/
def MAXIMUM_VISIBILITY_TIMEOUT : Int := 43200

/-- Modelled from the spec: moto/sqs/constants.py is not under src/. Default
number of messages returned by receive_message when MaxNumberOfMessages is
absent (spec 4.3: count defaults to 1). -/
def DEFAULT_RECEIVED_MESSAGES : Int := 1

/-- Maximum DelaySeconds value. The batch error message hard-coded in
src/moto/sqs/responses.py names the bound: DelaySeconds must be between
0 and 900. -/
def MAXIMUM_MESSAGE_DELAY : Int := 900

/-- Modelled from the spec: retention of the FIFO deduplication window,
five minutes (spec section 3, DeduplicationWindow). -/
def DEDUP_WINDOW_SECONDS : Nat := 300

/-- Modelled from the spec: a message of the queue engine (moto/sqs/models.py
is not under src/). Spec section 3, Message: identity, payload, optional FIFO
group, delayed-delivery deadline, visibility deadline and receive count. -/
structure Msg where
  msgId : Nat
  body : String
  groupId : Option String
  delayUntil : Nat
  visibleAt : Nat
  receiveCount : Nat
deriving DecidableEq, Repr

/-- Modelled from the spec: the state of one queue (spec section 3, Queue):
an ordered backlog of pending messages, an in-flight map from receipt handle
to leased message, the FIFO deduplication window (key, message id, expiry),
the backlog of the configured dead-letter queue, and configuration. Receipt
handles and message ids are kept fresh by counters. -/
structure QueueState where
  isFifo : Bool
  contentBasedDedup : Bool
  maxReceiveCount : Option Nat
  nextId : Nat
  nextHandle : Nat
  backlog : List Msg
  inflight : List (Nat × Msg)
  dedupWindow : List (String × Nat × Nat)
  dlq : List Msg
deriving DecidableEq, Repr

/-- Modelled from the spec: a fresh queue with no messages. -/
def initState (isFifo contentBasedDedup : Bool) (maxReceiveCount : Option Nat) :
    QueueState :=
  { isFifo := isFifo
    contentBasedDedup := contentBasedDedup
    maxReceiveCount := maxReceiveCount
    nextId := 0
    nextHandle := 0
    backlog := []
    inflight := []
    dedupWindow := []
    dlq := [] }

/-- Modelled from the spec (4.1): the dedup key of a send request is the
explicit deduplication id, or the content digest of the body when
content-based dedup is enabled; standard queues have no key. The digest is
modelled by the body itself. -/
def dedupKeyOf (s : QueueState) (body : String) (dedupId : Option String) :
    Option String :=
  if s.isFifo then
    match dedupId with
    | some d => some d
    | none => if s.contentBasedDedup then some body else none
  else none

/-- Modelled from the spec (section 3, DeduplicationWindow): look up an
unexpired dedup key, returning the message id recorded for it. -/
def findDedup (window : List (String × Nat × Nat)) (key : String) (now : Nat) :
    Option Nat :=
  match window.find? (fun e => e.1 == key && decide (now < e.2.2)) with
  | some e => some e.2.1
  | none => none

/-- Modelled from the spec (4.1): assign a fresh id, append the message to
the backlog with its delivery delay, and record the dedup key when one was
computed. -/
def enqueueMsg (s : QueueState) (body : String) (groupId : Option String)
    (dedupKey : Option String) (delay now : Nat) : QueueState :=
  { s with
    nextId := s.nextId + 1
    backlog := s.backlog ++
      [{ msgId := s.nextId
         body := body
         groupId := groupId
         delayUntil := now + delay
         visibleAt := 0
         receiveCount := 0 }]
    dedupWindow :=
      match dedupKey with
      | some k => (k, s.nextId, now + DEDUP_WINDOW_SECONDS) :: s.dedupWindow
      | none => s.dedupWindow }

/-- Modelled from the spec (4.1, Queue send): a FIFO send whose key is found
unexpired in the window returns the existing message id without mutating the
backlog; a FIFO send with no dedup key fails with MissingDeduplicationId
(modelled as none) and leaves the queue untouched; otherwise the message is
enqueued under a fresh id, which is returned. -/
def sendMsg (s : QueueState) (body : String) (groupId dedupId : Option String)
    (delay now : Nat) : Option Nat × QueueState :=
  match dedupKeyOf s body dedupId with
  | some key =>
    match findDedup s.dedupWindow key now with
    | some mid => (some mid, s)
    | none => (some s.nextId, enqueueMsg s body groupId (some key) delay now)
  | none =>
    if s.isFifo then (none, s)
    else (some s.nextId, enqueueMsg s body groupId none delay now)

/-- Modelled from the spec (section 3, GroupSequencer): the groups currently
locked are those with an in-flight message. -/
def lockedGroups (s : QueueState) : List String :=
  s.inflight.filterMap (fun p => p.2.groupId)

/-- Modelled from the spec (4.3): a backlog message is eligible when its
delivery delay has elapsed and, for FIFO queues, its group is not locked. -/
def eligible (s : QueueState) (now : Nat) (m : Msg) : Bool :=
  decide (m.delayUntil ≤ now) &&
    (match m.groupId with
     | none => true
     | some g => !(s.isFifo && (lockedGroups s).contains g))

/-- Remove the first element satisfying p from a list, returning it together
with the remaining elements in order. -/
def extractFirst (p : Msg → Bool) : List Msg → Option (Msg × List Msg)
  | [] => none
  | m :: rest =>
    if p m then some (m, rest)
    else
      match extractFirst p rest with
      | none => none
      | some (m2, rest2) => some (m2, m :: rest2)

/-- Modelled from the spec (4.3): hand out one eligible message, moving it
from the backlog to the in-flight map under a fresh receipt handle, setting
its visibility deadline and incrementing its receive count. -/
def receiveOne (s : QueueState) (now timeout : Nat) : QueueState :=
  match extractFirst (eligible s now) s.backlog with
  | none => s
  | some (m, rest) =>
    { s with
      backlog := rest
      inflight := s.inflight ++
        [(s.nextHandle,
          { m with visibleAt := now + timeout, receiveCount := m.receiveCount + 1 })]
      nextHandle := s.nextHandle + 1 }

/-- Modelled from the spec (4.3): receive up to count messages; stops early
when nothing is eligible (receiveOne is then the identity). -/
def receiveMany (count : Nat) (s : QueueState) (now timeout : Nat) : QueueState :=
  match count with
  | 0 => s
  | n + 1 => receiveMany n (receiveOne s now timeout) now timeout

/-- Modelled from the spec (4.4): update the visibility deadline of the
in-flight message leased under the given receipt handle, in place, keeping
the handle. -/
def changeVisibility (s : QueueState) (handle timeout now : Nat) : QueueState :=
  { s with
    inflight := s.inflight.map
      (fun p =>
        if p.1 = handle then (p.1, { p.2 with visibleAt := now + timeout }) else p) }

/-- Modelled from the spec (4.5): delete by receipt handle, idempotently;
a handle with no live lease deletes nothing. -/
def deleteMsg (s : QueueState) (handle : Nat) : QueueState :=
  { s with inflight := s.inflight.filter (fun p => p.1 != handle) }

/-- Modelled from the spec (4.6): purge removes all backlog and in-flight
messages and clears the dedup window. -/
def purgeQueue (s : QueueState) : QueueState :=
  { s with backlog := [], inflight := [], dedupWindow := [] }

/-- Modelled from the spec (4.7): a message whose receive count reached the
redrive policy maximum is moved to the dead-letter queue on lease expiry. -/
def exhausted (s : QueueState) (m : Msg) : Bool :=
  match s.maxReceiveCount with
  | none => false
  | some k => decide (k ≤ m.receiveCount)

/-- Modelled from the spec (4.7): lazy lease expiry. Every in-flight message
whose visibility deadline has passed leaves the in-flight map; it returns to
the backlog, unless its receive count reached the redrive maximum, in which
case it moves to the dead-letter queue backlog with the count reset. -/
def expireLeases (s : QueueState) (now : Nat) : QueueState :=
  let expired := (s.inflight.filter (fun p => decide (p.2.visibleAt ≤ now))).map
    (fun p => p.2)
  { s with
    inflight := s.inflight.filter (fun p => !decide (p.2.visibleAt ≤ now))
    backlog := s.backlog ++ expired.filter (fun m => !exhausted s m)
    dlq := s.dlq ++
      (expired.filter (fun m => exhausted s m)).map (fun m => { m with receiveCount := 0 }) }

/-- Modelled from the spec: the operations of one queue (4.1 to 4.6) plus
the lazy lease-expiry reconciliation (4.7). -/
inductive QOp where
  | send (body : String) (groupId dedupId : Option String) (delay now : Nat)
  | receive (count now timeout : Nat)
  | changeVis (handle timeout now : Nat)
  | deleteMessage (handle : Nat)
  | purge
  | expire (now : Nat)
deriving DecidableEq, Repr

/-- One step of the queue state machine. -/
def step (s : QueueState) : QOp → QueueState
  | .send body groupId dedupId delay now => (sendMsg s body groupId dedupId delay now).2
  | .receive count now timeout => receiveMany count s now timeout
  | .changeVis handle timeout now => changeVisibility s handle timeout now
  | .deleteMessage handle => deleteMsg s handle
  | .purge => purgeQueue s
  | .expire now => expireLeases s now

/-- Run a sequence of operations from a starting state. -/
def run (s0 : QueueState) (ops : List QOp) : QueueState :=
  ops.foldl step s0

/-- Ids of the messages pending in the backlog. -/
def backlogIds (s : QueueState) : List Nat := s.backlog.map Msg.msgId

/-- Ids of the messages currently leased. -/
def inflightIds (s : QueueState) : List Nat := s.inflight.map (fun p => p.2.msgId)

/-- Ids of every message still tracked: backlog, in-flight, and those moved
to the dead-letter queue. -/
def allIds (s : QueueState) : List Nat :=
  backlogIds s ++ inflightIds s ++ s.dlq.map Msg.msgId

/-- The internal invariant: no id occurs twice anywhere, and every id is
below the freshness counter. -/
def Wf (s : QueueState) : Prop :=
  (allIds s).Nodup ∧ ∀ i ∈ allIds s, i < s.nextId

/-- Operations that neither create nor remove tracked messages. -/
def preservesMessages : QOp → Bool
  | .receive _ _ _ => true
  | .changeVis _ _ _ => true
  | .expire _ => true
  | _ => false

theorem extractFirst_perm {p : Msg → Bool} :
    ∀ {l : List Msg} {m : Msg} {rest : List Msg},
      extractFirst p l = some (m, rest) → List.Perm l (m :: rest) := by
  intro l
  induction l with
  | nil => intro m rest h; simp [extractFirst] at h
  | cons a t ih =>
    intro m rest h
    by_cases hp : p a
    · simp [extractFirst, hp] at h
      obtain ⟨hm, hrest⟩ := h
      subst hm; subst hrest
      exact List.Perm.refl _
    · simp only [extractFirst, hp, Bool.false_eq_true, if_false] at h
      cases hext : extractFirst p t with
      | none => rw [hext] at h; simp at h
      | some pr =>
        obtain ⟨m2, rest2⟩ := pr
        rw [hext] at h
        simp only [Option.some.injEq, Prod.mk.injEq] at h
        obtain ⟨hm, hrest⟩ := h
        subst hm; subst hrest
        exact (List.Perm.cons a (ih hext)).trans (List.Perm.swap m2 a rest2)

theorem wf_of_subperm {s s' : QueueState} (l : List Nat)
    (hp : List.Perm (allIds s') l) (hs : List.Sublist l (allIds s))
    (hn : s.nextId ≤ s'.nextId) (h : Wf s) : Wf s' := by
  obtain ⟨hnd, hlt⟩ := h
  constructor
  · exact hp.nodup_iff.mpr (hnd.sublist hs)
  · intro i hi
    exact lt_of_lt_of_le (hlt i (hs.subset (hp.subset hi))) hn

theorem wf_enqueueMsg {s : QueueState} (h : Wf s) (body : String)
    (groupId dedupKey : Option String) (delay now : Nat) :
    Wf (enqueueMsg s body groupId dedupKey delay now) := by
  obtain ⟨hnd, hlt⟩ := h
  have hassoc : backlogIds s ++ (inflightIds s ++ s.dlq.map Msg.msgId) = allIds s := by
    simp [allIds, List.append_assoc]
  have hids : allIds (enqueueMsg s body groupId dedupKey delay now)
      = backlogIds s ++ s.nextId :: (inflightIds s ++ s.dlq.map Msg.msgId) := by
    simp [allIds, backlogIds, inflightIds, enqueueMsg, List.append_assoc]
  constructor
  · rw [hids, List.nodup_middle, List.nodup_cons, hassoc]
    exact ⟨fun hmem => absurd (hlt _ hmem) (lt_irrefl _), hnd⟩
  · intro i hi
    rw [hids] at hi
    have hnext : (enqueueMsg s body groupId dedupKey delay now).nextId = s.nextId + 1 := rfl
    rw [hnext]
    rcases List.mem_append.mp hi with hb | hrest
    · exact Nat.lt_succ_of_lt (hlt i (by rw [← hassoc]; exact List.mem_append.mpr (Or.inl hb)))
    · rcases List.mem_cons.mp hrest with heq | ht
      · exact heq ▸ Nat.lt_succ_self _
      · exact Nat.lt_succ_of_lt (hlt i (by rw [← hassoc]; exact List.mem_append.mpr (Or.inr ht)))

theorem perm_move_first {α : Type} (B R I D : List α) (x : α)
    (hb : List.Perm B (x :: R)) :
    List.Perm ((R ++ (I ++ [x])) ++ D) ((B ++ I) ++ D) := by
  apply List.Perm.append_right
  have s1 : List.Perm (I ++ [x]) (x :: I) := by
    have h0 : List.Perm (I ++ x :: []) (x :: (I ++ [])) := List.perm_middle
    simp only [List.append_nil] at h0
    exact h0
  have s2 : List.Perm (R ++ (I ++ [x])) (R ++ x :: I) := s1.append_left R
  have s3 : List.Perm (R ++ x :: I) (x :: (R ++ I)) := List.perm_middle
  have s4 : List.Perm (B ++ I) (x :: (R ++ I)) := by simpa using hb.append_right I
  exact (s2.trans s3).trans s4.symm

theorem allIds_receiveOne_perm (s : QueueState) (now timeout : Nat) :
    List.Perm (allIds (receiveOne s now timeout)) (allIds s) := by
  unfold receiveOne
  cases hext : extractFirst (eligible s now) s.backlog with
  | none => exact List.Perm.refl _
  | some pr =>
    obtain ⟨m, rest⟩ := pr
    have hb : List.Perm (s.backlog.map Msg.msgId) (m.msgId :: rest.map Msg.msgId) := by
      simpa using (extractFirst_perm hext).map Msg.msgId
    simp only [allIds, backlogIds, inflightIds, List.map_append, List.map_cons, List.map_nil]
    exact perm_move_first _ _ _ _ _ hb

theorem nextId_receiveOne (s : QueueState) (now timeout : Nat) :
    (receiveOne s now timeout).nextId = s.nextId := by
  unfold receiveOne
  cases hext : extractFirst (eligible s now) s.backlog with
  | none => rfl
  | some pr => obtain ⟨m, rest⟩ := pr; rfl

theorem allIds_receiveMany_perm (count : Nat) : ∀ (s : QueueState) (now timeout : Nat),
    List.Perm (allIds (receiveMany count s now timeout)) (allIds s) := by
  induction count with
  | zero => intro s now timeout; exact List.Perm.refl _
  | succ n ih =>
    intro s now timeout
    exact (ih _ now timeout).trans (allIds_receiveOne_perm s now timeout)

theorem nextId_receiveMany (count : Nat) : ∀ (s : QueueState) (now timeout : Nat),
    (receiveMany count s now timeout).nextId = s.nextId := by
  induction count with
  | zero => intro s now timeout; rfl
  | succ n ih =>
    intro s now timeout
    exact (ih _ now timeout).trans (nextId_receiveOne s now timeout)

theorem allIds_changeVisibility (s : QueueState) (handle timeout now : Nat) :
    allIds (changeVisibility s handle timeout now) = allIds s := by
  simp only [allIds, backlogIds, inflightIds, changeVisibility]
  have hmap : (s.inflight.map
      (fun p => if p.1 = handle then (p.1, { p.2 with visibleAt := now + timeout }) else p)).map
        (fun p => p.2.msgId) = s.inflight.map (fun p => p.2.msgId) := by
    rw [List.map_map]
    apply List.map_congr_left
    intro p _
    by_cases hh : p.1 = handle <;> simp [hh, Function.comp]
  rw [hmap]

theorem allIds_deleteMsg_sublist (s : QueueState) (handle : Nat) :
    List.Sublist (allIds (deleteMsg s handle)) (allIds s) := by
  simp only [allIds, backlogIds, inflightIds, deleteMsg]
  exact List.Sublist.append
    (List.Sublist.append (List.Sublist.refl _) ((List.filter_sublist _).map _))
    (List.Sublist.refl _)

theorem allIds_purgeQueue_sublist (s : QueueState) :
    List.Sublist (allIds (purgeQueue s)) (allIds s) := by
  simp only [allIds, backlogIds, inflightIds, purgeQueue, List.map_nil, List.nil_append]
  exact List.sublist_append_right _ _

theorem expire_multiset_eq {B Ret K D Red I E : Multiset Nat}
    (h1 : E + K = I) (h2 : Red + Ret = E) :
    B + Ret + K + (D + Red) = B + I + D := by
  rw [← h1, ← h2]; abel

theorem allIds_expireLeases_perm (s : QueueState) (now : Nat) :
    List.Perm (allIds (expireLeases s now)) (allIds s) := by
  apply Multiset.coe_eq_coe.mp
  have h1 : ((s.inflight.filter (fun p => decide (p.2.visibleAt ≤ now))).map
        (fun p => p.2.msgId) : Multiset Nat)
      + ((s.inflight.filter (fun p => !decide (p.2.visibleAt ≤ now))).map
        (fun p => p.2.msgId) : Multiset Nat)
      = (s.inflight.map (fun p => p.2.msgId) : Multiset Nat) := by
    have hperm := (List.filter_append_perm
      (fun p => decide (p.2.visibleAt ≤ now)) s.inflight).map (fun p => p.2.msgId)
    rw [List.map_append] at hperm
    have hc := Multiset.coe_eq_coe.mpr hperm
    rwa [← Multiset.coe_add] at hc
  have hmapmap : List.map Msg.msgId
      ((s.inflight.filter (fun p => decide (p.2.visibleAt ≤ now))).map (fun p => p.2))
      = (s.inflight.filter (fun p => decide (p.2.visibleAt ≤ now))).map
        (fun p => p.2.msgId) := by
    rw [List.map_map]
    apply List.map_congr_left
    intro p _
    rfl
  have h2 : ((((s.inflight.filter (fun p => decide (p.2.visibleAt ≤ now))).map
          (fun p => p.2)).filter (fun m => exhausted s m)).map Msg.msgId : Multiset Nat)
      + ((((s.inflight.filter (fun p => decide (p.2.visibleAt ≤ now))).map
          (fun p => p.2)).filter (fun m => !exhausted s m)).map Msg.msgId : Multiset Nat)
      = ((s.inflight.filter (fun p => decide (p.2.visibleAt ≤ now))).map
          (fun p => p.2.msgId) : Multiset Nat) := by
    have hperm := (List.filter_append_perm (fun m => exhausted s m)
      ((s.inflight.filter (fun p => decide (p.2.visibleAt ≤ now))).map (fun p => p.2))).map
        Msg.msgId
    rw [List.map_append] at hperm
    have hc := Multiset.coe_eq_coe.mpr hperm
    rw [← Multiset.coe_add] at hc
    rwa [hmapmap] at hc
  have h3 : ((((s.inflight.filter (fun p => decide (p.2.visibleAt ≤ now))).map
          (fun p => p.2)).filter (fun m => exhausted s m)).map
        (fun m => { m with receiveCount := 0 })).map Msg.msgId
      = (((s.inflight.filter (fun p => decide (p.2.visibleAt ≤ now))).map
          (fun p => p.2)).filter (fun m => exhausted s m)).map Msg.msgId := by
    rw [List.map_map]
    apply List.map_congr_left
    intro m _
    rfl
  simp only [allIds, backlogIds, inflightIds, expireLeases, List.map_append, h3]
  simp only [← Multiset.coe_add]
  exact expire_multiset_eq h1 h2

theorem wf_step {s : QueueState} (h : Wf s) (op : QOp) : Wf (step s op) := by
  cases op with
  | send body groupId dedupId delay now =>
    show Wf (sendMsg s body groupId dedupId delay now).2
    unfold sendMsg
    split
    · split
      · exact h
      · exact wf_enqueueMsg h _ _ _ _ _
    · split
      · exact h
      · exact wf_enqueueMsg h _ _ _ _ _
  | receive count now timeout =>
    show Wf (receiveMany count s now timeout)
    exact wf_of_subperm _ (allIds_receiveMany_perm count s now timeout) (List.Sublist.refl _)
      (le_of_eq (nextId_receiveMany count s now timeout).symm) h
  | changeVis handle timeout now =>
    show Wf (changeVisibility s handle timeout now)
    refine wf_of_subperm (allIds s) ?_ (List.Sublist.refl _) (le_refl _) h
    rw [allIds_changeVisibility]
  | deleteMessage handle =>
    show Wf (deleteMsg s handle)
    exact wf_of_subperm _ (List.Perm.refl _) (allIds_deleteMsg_sublist s handle) (le_refl _) h
  | purge =>
    show Wf (purgeQueue s)
    exact wf_of_subperm _ (List.Perm.refl _) (allIds_purgeQueue_sublist s) (le_refl _) h
  | expire now =>
    show Wf (expireLeases s now)
    exact wf_of_subperm _ (allIds_expireLeases_perm s now) (List.Sublist.refl _) (le_refl _) h

theorem wf_initState (isFifo contentBasedDedup : Bool) (maxReceiveCount : Option Nat) :
    Wf (initState isFifo contentBasedDedup maxReceiveCount) := by
  constructor <;> simp [allIds, backlogIds, inflightIds, initState]

theorem wf_run (s0 : QueueState) (h : Wf s0) (ops : List QOp) : Wf (run s0 ops) := by
  induction ops generalizing s0 with
  | nil => simpa [run] using h
  | cons op rest ih => simpa [run] using ih (step s0 op) (wf_step h op)

theorem allIds_perm_of_preserves (s : QueueState) (op : QOp)
    (h : preservesMessages op = true) : List.Perm (allIds (step s op)) (allIds s) := by
  cases op with
  | send body groupId dedupId delay now => simp [preservesMessages] at h
  | receive count now timeout => exact allIds_receiveMany_perm count s now timeout
  | changeVis handle timeout now => rw [step, allIds_changeVisibility]
  | deleteMessage handle => simp [preservesMessages] at h
  | purge => simp [preservesMessages] at h
  | expire now => exact allIds_expireLeases_perm s now

/-- C1: in every state reachable by any sequence of queue operations from a
fresh queue, each message id occurs in at most one place: the backlog has no
duplicate ids, the in-flight set has no duplicate ids, and the two are
disjoint, so every tracked message belongs to exactly one of them; moreover
the operations that do not delete or create messages (receive, change
visibility, lease expiry) preserve the multiset of tracked message ids, so a
message never vanishes except through delete or purge. Every operation
(send, receive, change visibility, delete, purge, lease expiry) therefore
preserves the disjoint-union invariant. -/
theorem C1_backlog_inflight_disjoint_union (isFifo contentBasedDedup : Bool)
    (maxReceiveCount : Option Nat) (ops : List QOp) :
    (backlogIds (run (initState isFifo contentBasedDedup maxReceiveCount) ops)).Nodup ∧
    (inflightIds (run (initState isFifo contentBasedDedup maxReceiveCount) ops)).Nodup ∧
    (backlogIds (run (initState isFifo contentBasedDedup maxReceiveCount) ops)).Disjoint
      (inflightIds (run (initState isFifo contentBasedDedup maxReceiveCount) ops)) ∧
    (∀ op, preservesMessages op = true →
      List.Perm
        (allIds (step (run (initState isFifo contentBasedDedup maxReceiveCount) ops) op))
        (allIds (run (initState isFifo contentBasedDedup maxReceiveCount) ops))) := by
  have hwf := wf_run (initState isFifo contentBasedDedup maxReceiveCount)
    (wf_initState isFifo contentBasedDedup maxReceiveCount) ops
  obtain ⟨hnd, -⟩ := hwf
  have hBI : (backlogIds (run (initState isFifo contentBasedDedup maxReceiveCount) ops)
      ++ inflightIds (run (initState isFifo contentBasedDedup maxReceiveCount) ops)).Nodup := by
    refine hnd.sublist ?_
    simp only [allIds]
    exact List.sublist_append_left _ _
  obtain ⟨h1, h2, h3⟩ := List.nodup_append.mp hBI
  exact ⟨h1, h2, h3, fun op hop => allIds_perm_of_preserves _ op hop⟩

/-- Witness for C1: the invariant theorem applied to a concrete operation
sequence, with a concrete id-preserving operation for the last conjunct. -/
theorem C1_backlog_inflight_disjoint_union_witness :
    preservesMessages (QOp.expire 7) = true ∧
    List.Perm
      (allIds (step (run (initState false false none)
        [QOp.send "a" none none 0 0, QOp.receive 1 0 30]) (QOp.expire 7)))
      (allIds (run (initState false false none)
        [QOp.send "a" none none 0 0, QOp.receive 1 0 30])) :=
  ⟨by decide,
    (C1_backlog_inflight_disjoint_union false false none
      [QOp.send "a" none none 0 0, QOp.receive 1 0 30]).2.2.2 (QOp.expire 7) (by decide)⟩

/-! The SQS response layer, embedded from src/moto/sqs/responses.py.
Receipt handles are opaque tokens and are modelled as natural numbers. -/

/-- Result of the visibility-timeout validator: ok, or the ValueError
raised when the timeout exceeds the maximum. -/
inductive VisibilityValidation where
  | ok (t : Int)
  | valueError
deriving DecidableEq, Repr

/-- Embeds SQSResponse._get_validated_visibility_timeout (responses.py lines
62-75) for an explicitly supplied timeout: ValueError exactly when the
timeout exceeds MAXIMUM_VISIBILITY_TIMEOUT; there is no lower-bound check. -/
def get_validated_visibility_timeout (timeout : Int) : VisibilityValidation :=
  if MAXIMUM_VISIBILITY_TIMEOUT < timeout then .valueError else .ok timeout

/-- Outcome of the change_message_visibility handler: the
ERROR_MAX_VISIBILITY_TIMEOUT_RESPONSE 400 error, or the backend call with
the validated timeout. -/
inductive CmvOutcome where
  | maxVisibilityTimeoutError
  | backendInvoked (receiptHandle : Nat) (visibilityTimeout : Int)
deriving DecidableEq, Repr

/-- Embeds SQSResponse.change_message_visibility (responses.py lines
119-135): a ValueError from the validator becomes the
max-visibility-timeout 400 response before the backend is reached;
otherwise the backend update is invoked with the validated timeout. -/
def change_message_visibility (receiptHandle : Nat) (timeout : Int) : CmvOutcome :=
  match get_validated_visibility_timeout timeout with
  | .valueError => .maxVisibilityTimeoutError
  | .ok t => .backendInvoked receiptHandle t

/-- Optional request parameters of receive_message. -/
structure ReceiveParams where
  maxNumberOfMessages : Option Int
  waitTimeSeconds : Option Int
  visibilityTimeout : Option Int
deriving DecidableEq, Repr

/-- Outcome of the receive_message validation chain. -/
inductive ReceiveOutcome where
  | invalidMaxNumberOfMessages (n : Int)
  | invalidWaitTime (w : Int)
  | maxVisibilityTimeoutError
  | backendInvoked (count waitTime timeout : Int)
deriving DecidableEq, Repr

/-- Embeds the validation chain of SQSResponse.receive_message
(responses.py lines 345-410): the message count (default
DEFAULT_RECEIVED_MESSAGES) must lie in 1..10, the wait time (default from
the queue) in 0..20; an absent visibility timeout falls back to the queue
default (the TypeError path), an oversized one yields the
max-visibility-timeout 400 response (the ValueError path). -/
def receive_message (queueWaitTime queueVisibilityTimeout : Int)
    (p : ReceiveParams) : ReceiveOutcome :=
  let messageCount := p.maxNumberOfMessages.getD DEFAULT_RECEIVED_MESSAGES
  if messageCount < 1 ∨ 10 < messageCount then
    .invalidMaxNumberOfMessages messageCount
  else
    let waitTime := p.waitTimeSeconds.getD queueWaitTime
    if waitTime < 0 ∨ 20 < waitTime then .invalidWaitTime waitTime
    else
      match p.visibilityTimeout with
      | none => .backendInvoked messageCount waitTime queueVisibilityTimeout
      | some t =>
        match get_validated_visibility_timeout t with
        | .valueError => .maxVisibilityTimeoutError
        | .ok t2 => .backendInvoked messageCount waitTime t2

/-- Outcome of the send_message handler. -/
inductive SendOutcome where
  | tooLongError
  | backendError
  | sent (msgId : Nat)
deriving DecidableEq, Repr

/-- Embeds SQSResponse.send_message (responses.py lines 189-219): a body
longer than MAXIMUM_MESSAGE_LENGTH is answered with ERROR_TOO_LONG_RESPONSE
(status 400) before the backend is invoked, leaving the queue untouched;
otherwise the backend send runs against the queue model (a RESTError from
the backend, such as a FIFO send without a dedup key, is rendered as an
error response). -/
def send_message (s : QueueState) (body : String) (groupId dedupId : Option String)
    (delaySeconds now : Nat) : SendOutcome × QueueState :=
  if MAXIMUM_MESSAGE_LENGTH < body.length then (.tooLongError, s)
  else
    match sendMsg s body groupId dedupId delaySeconds now with
    | (some mid, s2) => (.sent mid, s2)
    | (none, s2) => (.backendError, s2)

/-- C4: a send_message whose body exceeds the maximum message size is
answered with the too-long error before reaching the backend, so the queue
state is unchanged and nothing is enqueued; a body within the limit is
never rejected by this check. -/
theorem C4_send_message_too_long (s : QueueState) (body : String)
    (groupId dedupId : Option String) (delaySeconds now : Nat) :
    (MAXIMUM_MESSAGE_LENGTH < body.length →
      send_message s body groupId dedupId delaySeconds now = (.tooLongError, s)) ∧
    (body.length ≤ MAXIMUM_MESSAGE_LENGTH →
      (send_message s body groupId dedupId delaySeconds now).1 ≠ .tooLongError) := by
  constructor
  · intro h
    simp [send_message, h]
  · intro h
    simp only [send_message, if_neg (not_lt.mpr h)]
    cases hr : sendMsg s body groupId dedupId delaySeconds now with
    | mk fst snd => cases fst <;> simp

/-- Witness for C4: a 262145-character body is rejected with the state
unchanged; a two-character body is not rejected by the length check. -/
theorem C4_send_message_too_long_witness :
    (MAXIMUM_MESSAGE_LENGTH < (String.mk (List.replicate 262145 'a')).length ∧
      send_message (initState false false none) (String.mk (List.replicate 262145 'a'))
        none none 0 0 = (.tooLongError, initState false false none)) ∧
    ("hi".length ≤ MAXIMUM_MESSAGE_LENGTH ∧
      (send_message (initState false false none) "hi" none none 0 0).1 ≠ .tooLongError) := by
  have hlen : (String.mk (List.replicate 262145 'a')).length = 262145 := by
    rw [String.length]
    exact List.length_replicate 262145 'a'
  constructor
  · have h : MAXIMUM_MESSAGE_LENGTH < (String.mk (List.replicate 262145 'a')).length := by
      rw [hlen]; norm_num [MAXIMUM_MESSAGE_LENGTH]
    exact ⟨h, (C4_send_message_too_long _ _ _ _ _ _).1 h⟩
  · have h : "hi".length ≤ MAXIMUM_MESSAGE_LENGTH := by decide
    exact ⟨h, (C4_send_message_too_long _ _ _ _ _ _).2 h⟩

/-- C7: the change_message_visibility call fails with the
maximum-visibility-timeout error exactly when the requested timeout exceeds
the system maximum, and for every timeout not exceeding it the validation
succeeds and the backend update is invoked with that timeout. -/
theorem C7_change_visibility_validation (receiptHandle : Nat) (timeout : Int) :
    (change_message_visibility receiptHandle timeout = .maxVisibilityTimeoutError
      ↔ MAXIMUM_VISIBILITY_TIMEOUT < timeout) ∧
    (change_message_visibility receiptHandle timeout
        = .backendInvoked receiptHandle timeout
      ↔ timeout ≤ MAXIMUM_VISIBILITY_TIMEOUT) := by
  unfold change_message_visibility get_validated_visibility_timeout
  by_cases h : MAXIMUM_VISIBILITY_TIMEOUT < timeout <;> simp [h] <;> omega

/-- C9: the visibility validator checks only the upper bound: it raises
exactly when the timeout exceeds the system maximum, and every negative
timeout is accepted unchanged, so change_message_visibility and
receive_message proceed to the backend with the negative value. -/
theorem C9_no_lower_bound_check (timeout : Int) (receiptHandle : Nat)
    (queueWaitTime queueVisibilityTimeout : Int) :
    (get_validated_visibility_timeout timeout = .valueError
      ↔ MAXIMUM_VISIBILITY_TIMEOUT < timeout) ∧
    (timeout < 0 →
      get_validated_visibility_timeout timeout = .ok timeout ∧
      change_message_visibility receiptHandle timeout
        = .backendInvoked receiptHandle timeout ∧
      receive_message queueWaitTime queueVisibilityTimeout
          { maxNumberOfMessages := some 1, waitTimeSeconds := some 0,
            visibilityTimeout := some timeout }
        = .backendInvoked 1 0 timeout) := by
  have hmax : MAXIMUM_VISIBILITY_TIMEOUT = (43200 : Int) := rfl
  constructor
  · unfold get_validated_visibility_timeout
    by_cases h : MAXIMUM_VISIBILITY_TIMEOUT < timeout <;> simp [h]
  · intro hneg
    have hle : ¬ MAXIMUM_VISIBILITY_TIMEOUT < timeout := by omega
    refine ⟨?_, ?_, ?_⟩
    · simp [get_validated_visibility_timeout, hle]
    · simp [change_message_visibility, get_validated_visibility_timeout, hle]
    · simp [receive_message, get_validated_visibility_timeout, hle]

/-- Witness for C9 at timeout -7: the validator accepts it and both
handlers reach the backend with -7. -/
theorem C9_no_lower_bound_check_witness :
    (-7 : Int) < 0 ∧
    (get_validated_visibility_timeout (-7) = .ok (-7) ∧
      change_message_visibility 5 (-7) = .backendInvoked 5 (-7) ∧
      receive_message 0 30
          { maxNumberOfMessages := some 1, waitTimeSeconds := some 0,
            visibilityTimeout := some (-7) }
        = .backendInvoked 1 0 (-7)) :=
  ⟨by decide, (C9_no_lower_bound_check (-7) 5 0 30).2 (by decide)⟩

/-! Batch operations. The entry collection and the receipt-handle
distinctness check of delete_message_batch are embedded from
src/moto/sqs/responses.py; the per-entry backend processing and the
batch-wide duplicate-id check live in moto/sqs/models.py, which is not
under src/, and are modelled from the spec (4.2, 4.4, 4.5). -/

/-- Batch-wide violations that abort a whole batch call (spec section 7). -/
inductive BatchAbort where
  | emptyBatchRequest
  | batchEntryIdsNotDistinct (offendingId : String)
deriving DecidableEq, Repr

instance {ε α : Type} [DecidableEq ε] [DecidableEq α] : DecidableEq (Except ε α) :=
  fun a b =>
    match a, b with
    | .error e1, .error e2 => decidable_of_iff (e1 = e2) (by simp)
    | .ok v1, .ok v2 => decidable_of_iff (v1 = v2) (by simp)
    | .error _, .ok _ => isFalse (fun h => Except.noConfusion h)
    | .ok _, .error _ => isFalse (fun h => Except.noConfusion h)

/-- Modelled from the spec (4.2): the first caller-supplied id that repeats
an earlier one, scanning in order with a seen set. -/
def firstDuplicate (seen : List String) : List String → Option String
  | [] => none
  | i :: rest => if i ∈ seen then some i else firstDuplicate (i :: seen) rest

/-- One entry of a delete_message_batch request. -/
structure DeleteMessageBatchEntry where
  userId : String
  receiptHandle : Nat
deriving DecidableEq, Repr

/-- Embeds the receipt_seen loop of SQSResponse.delete_message_batch
(responses.py lines 327-332): the first entry whose receipt-handle value
was already seen determines the raised BatchEntryIdsNotDistinct, which
carries that entry's user id. -/
def firstDuplicateReceipt (seen : List Nat) :
    List DeleteMessageBatchEntry → Option String
  | [] => none
  | e :: rest =>
    if e.receiptHandle ∈ seen then some e.userId
    else firstDuplicateReceipt (e.receiptHandle :: seen) rest

/-- One entry of a send_message_batch request. -/
structure SendMessageBatchEntry where
  userId : String
  messageBody : String
  delaySeconds : Option Int
  messageGroupId : Option String
  messageDeduplicationId : Option String
deriving DecidableEq, Repr

/-- One success entry of a send_message_batch response. -/
structure SendMessageBatchResultEntry where
  userId : String
  msgId : Nat
deriving DecidableEq, Repr

/-- One failure entry of a batch response (BatchResultErrorEntry in the
response templates of responses.py). -/
structure BatchResultErrorEntry where
  userId : String
  senderFault : String
  code : String
  message : String
deriving DecidableEq, Repr

/-- Modelled from the spec (4.2): an entry's delay is invalid when it
exceeds the queue/system maximum; an absent delay falls back to the queue
default and is never invalid by this check. -/
def invalidDelay : Option Int → Bool
  | none => false
  | some v => decide (MAXIMUM_MESSAGE_DELAY < v)

/-- Hard-coded message of the per-entry delay failure in
SQSResponse.send_message_batch (responses.py lines 279-287). -/
def DELAY_ERROR_MESSAGE : String :=
  "Value 1800 for parameter DelaySeconds is invalid. Reason: DelaySeconds must be >= 0 and <= 900."

/-- Modelled from the spec (4.2 and section 7): the backend processes
entries independently in order; an entry with an invalid delay, and a FIFO
entry whose send fails for want of a deduplication key (the
MissingDeduplicationId failure of 4.1), are collected in the batch failure
list without aborting their siblings, as section 7's propagation policy
requires; every other entry is sent as in 4.1 and reported as a success. -/
def send_entries_loop (now : Nat) :
    QueueState → List SendMessageBatchEntry →
      (List SendMessageBatchResultEntry × List SendMessageBatchEntry) × QueueState
  | s, [] => (([], []), s)
  | s, e :: rest =>
    if invalidDelay e.delaySeconds then
      let r := send_entries_loop now s rest
      ((r.1.1, e :: r.1.2), r.2)
    else
      match sendMsg s e.messageBody e.messageGroupId e.messageDeduplicationId
          ((e.delaySeconds.getD 0).toNat) now with
      | (some mid, s2) =>
        let r := send_entries_loop now s2 rest
        (({ userId := e.userId, msgId := mid } :: r.1.1, r.1.2), r.2)
      | (none, s2) =>
        let r := send_entries_loop now s2 rest
        ((r.1.1, e :: r.1.2), r.2)

/-- A send of this entry fails with MissingDeduplicationId on this queue
(spec 4.1): the queue is FIFO and neither an explicit dedup id nor
content-based dedup provides a key. -/
def missingDedupKey (s : QueueState) (e : SendMessageBatchEntry) : Bool :=
  s.isFifo && (dedupKeyOf s e.messageBody e.messageDeduplicationId).isNone

/-- Embeds SQSResponse.send_message_batch (responses.py lines 221-290)
composed with the spec-modelled backend: an empty entry collection raises
EmptyBatchRequest before the backend runs; the batch-wide duplicate-id
check required by the spec (4.2) is performed by the backend, which is not
under src/, and is modelled between the empty check and the entry
processing; every backend-reported failure is rendered as a
BatchResultErrorEntry with code InvalidParameterValue, SenderFault "true"
and the hard-coded DelaySeconds message, as the response layer does with
the whole failedInvalidDelay list (responses.py 278-287). -/
def send_message_batch (s : QueueState) (now : Nat)
    (entries : List SendMessageBatchEntry) :
    Except BatchAbort
      (List SendMessageBatchResultEntry × List BatchResultErrorEntry) × QueueState :=
  if entries.isEmpty then (.error .emptyBatchRequest, s)
  else
    match firstDuplicate [] (entries.map SendMessageBatchEntry.userId) with
    | some dup => (.error (.batchEntryIdsNotDistinct dup), s)
    | none =>
      let r := send_entries_loop now s entries
      (.ok (r.1.1, r.1.2.map (fun e =>
        { userId := e.userId
          senderFault := "true"
          code := "InvalidParameterValue"
          message := DELAY_ERROR_MESSAGE })), r.2)

/-- Modelled from the spec (4.5 and section 8): per-entry deletes,
independent; an entry whose receipt handle has no live lease is reported as
a failed entry, the others are deleted and their ids reported as
successes. -/
def delete_entries_loop :
    QueueState → List DeleteMessageBatchEntry →
      (List String × List BatchResultErrorEntry) × QueueState
  | s, [] => (([], []), s)
  | s, e :: rest =>
    if s.inflight.any (fun p => p.1 == e.receiptHandle) then
      let r := delete_entries_loop (deleteMsg s e.receiptHandle) rest
      ((e.userId :: r.1.1, r.1.2), r.2)
    else
      let r := delete_entries_loop s rest
      ((r.1.1, { userId := e.userId, senderFault := "true",
                 code := "ReceiptHandleIsInvalid",
                 message := "The input receipt handle is invalid." } :: r.1.2), r.2)

/-- Embeds SQSResponse.delete_message_batch (responses.py lines 299-337):
the collected entries go through the receipt_seen loop, which raises
BatchEntryIdsNotDistinct for the first repeated receipt-handle value before
the backend is invoked; the backend per-entry processing and the
batch-wide duplicate-id rule of the spec (4.5 with 4.2) are not under src/
and are modelled from the spec, the id check running before any entry is
processed. -/
def delete_message_batch (s : QueueState)
    (entries : List DeleteMessageBatchEntry) :
    Except BatchAbort (List String × List BatchResultErrorEntry) × QueueState :=
  match firstDuplicateReceipt [] entries with
  | some uid => (.error (.batchEntryIdsNotDistinct uid), s)
  | none =>
    match firstDuplicate [] (entries.map DeleteMessageBatchEntry.userId) with
    | some dup => (.error (.batchEntryIdsNotDistinct dup), s)
    | none =>
      let r := delete_entries_loop s entries
      (.ok r.1, r.2)

/-- One entry of a change_message_visibility_batch request. -/
structure CmvBatchEntry where
  userId : String
  receiptHandle : Nat
  visibilityTimeout : Nat
deriving DecidableEq, Repr

/-- Modelled from the spec (4.4): per-entry visibility updates with
independent success/failure; an entry whose receipt handle has no live
lease fails with ReceiptHandleIsInvalid, the others update the deadline in
place. -/
def cmv_entries_loop (now : Nat) :
    QueueState → List CmvBatchEntry →
      (List String × List BatchResultErrorEntry) × QueueState
  | s, [] => (([], []), s)
  | s, e :: rest =>
    if s.inflight.any (fun p => p.1 == e.receiptHandle) then
      let r := cmv_entries_loop now
        (changeVisibility s e.receiptHandle e.visibilityTimeout now) rest
      ((e.userId :: r.1.1, r.1.2), r.2)
    else
      let r := cmv_entries_loop now s rest
      ((r.1.1, { userId := e.userId, senderFault := "true",
                 code := "ReceiptHandleIsInvalid",
                 message := "The input receipt handle is invalid." } :: r.1.2), r.2)

/-- Embeds SQSResponse.change_message_visibility_batch (responses.py lines
137-146), which delegates the collected entries to the backend unchanged;
the backend is not under src/ and is modelled from the spec (4.4),
including the batch-wide duplicate-id rule of 4.2, checked before any entry
is processed. -/
def change_message_visibility_batch (s : QueueState) (now : Nat)
    (entries : List CmvBatchEntry) :
    Except BatchAbort (List String × List BatchResultErrorEntry) × QueueState :=
  match firstDuplicate [] (entries.map CmvBatchEntry.userId) with
  | some dup => (.error (.batchEntryIdsNotDistinct dup), s)
  | none =>
    let r := cmv_entries_loop now s entries
    (.ok r.1, r.2)

theorem nodup_of_firstDuplicate_none :
    ∀ (seen : List String) (l : List String),
      firstDuplicate seen l = none → l.Nodup ∧ ∀ i ∈ l, i ∉ seen := by
  intro seen l
  induction l generalizing seen with
  | nil => intro _; simp
  | cons a t ih =>
    intro h
    rw [firstDuplicate] at h
    by_cases hc : a ∈ seen
    · rw [if_pos hc] at h; cases h
    · rw [if_neg hc] at h
      obtain ⟨hnd, hall⟩ := ih (a :: seen) h
      refine ⟨List.nodup_cons.mpr ⟨?_, hnd⟩, ?_⟩
      · intro hat
        exact hall a hat (List.mem_cons_self a seen)
      · intro i hi
        rcases List.mem_cons.mp hi with rfl | hit
        · exact hc
        · exact fun hs => hall i hit (List.mem_cons_of_mem a hs)

theorem firstDuplicate_none_of_nodup :
    ∀ (seen : List String) (l : List String),
      l.Nodup → (∀ i ∈ l, i ∉ seen) → firstDuplicate seen l = none := by
  intro seen l
  induction l generalizing seen with
  | nil => intro _ _; rfl
  | cons a t ih =>
    intro hnd hseen
    rw [firstDuplicate, if_neg (hseen a (List.mem_cons_self a t))]
    apply ih
    · exact (List.nodup_cons.mp hnd).2
    · intro i hit hmem
      rcases List.mem_cons.mp hmem with rfl | hsi
      · exact (List.nodup_cons.mp hnd).1 hit
      · exact hseen i (List.mem_cons_of_mem a hit) hsi

theorem firstDuplicate_some_of_not_nodup {l : List String}
    (h : ¬ l.Nodup) : ∃ dup, firstDuplicate [] l = some dup := by
  cases hf : firstDuplicate [] l with
  | none => exact absurd (nodup_of_firstDuplicate_none [] l hf).1 h
  | some dup => exact ⟨dup, rfl⟩

theorem receipts_nodup_of_firstDuplicateReceipt_none :
    ∀ (seen : List Nat) (l : List DeleteMessageBatchEntry),
      firstDuplicateReceipt seen l = none →
        (l.map DeleteMessageBatchEntry.receiptHandle).Nodup ∧
        ∀ r ∈ l.map DeleteMessageBatchEntry.receiptHandle, r ∉ seen := by
  intro seen l
  induction l generalizing seen with
  | nil => intro _; simp
  | cons e t ih =>
    intro h
    rw [firstDuplicateReceipt] at h
    by_cases hc : e.receiptHandle ∈ seen
    · rw [if_pos hc] at h; cases h
    · rw [if_neg hc] at h
      obtain ⟨hnd, hall⟩ := ih (e.receiptHandle :: seen) h
      rw [List.map_cons]
      refine ⟨List.nodup_cons.mpr ⟨?_, hnd⟩, ?_⟩
      · intro hat
        exact hall e.receiptHandle hat (List.mem_cons_self _ _)
      · intro r hr
        rcases List.mem_cons.mp hr with rfl | hrt
        · exact hc
        · exact fun hs => hall r hrt (List.mem_cons_of_mem _ hs)

/-- C2: in each of the three batch operations, a batch whose entries carry
a repeated caller-supplied entry id fails as a whole with
BatchEntryIdsNotDistinct and no entry is processed: the queue state is
returned unchanged and no per-entry result exists. The send and
visibility variants rely on the spec-modelled backend check
(moto/sqs/models.py is not under src/); for the delete variant the
response layer's receipt check may fire first, the spec-modelled id check
otherwise — either way the call aborts. -/
theorem C2_batch_duplicate_ids (s : QueueState) (now : Nat)
    (sendEntries : List SendMessageBatchEntry)
    (delEntries : List DeleteMessageBatchEntry)
    (cmvEntries : List CmvBatchEntry) :
    (¬ (sendEntries.map SendMessageBatchEntry.userId).Nodup →
      ∃ uid, (send_message_batch s now sendEntries).1
          = .error (.batchEntryIdsNotDistinct uid) ∧
        (send_message_batch s now sendEntries).2 = s) ∧
    (¬ (delEntries.map DeleteMessageBatchEntry.userId).Nodup →
      ∃ uid, (delete_message_batch s delEntries).1
          = .error (.batchEntryIdsNotDistinct uid) ∧
        (delete_message_batch s delEntries).2 = s) ∧
    (¬ (cmvEntries.map CmvBatchEntry.userId).Nodup →
      ∃ uid, (change_message_visibility_batch s now cmvEntries).1
          = .error (.batchEntryIdsNotDistinct uid) ∧
        (change_message_visibility_batch s now cmvEntries).2 = s) := by
  refine ⟨?_, ?_, ?_⟩
  · intro h
    obtain ⟨dup, hdup⟩ := firstDuplicate_some_of_not_nodup h
    have hne : sendEntries.isEmpty = false := by
      cases sendEntries with
      | nil => simp at h
      | cons a t => rfl
    exact ⟨dup, by simp [send_message_batch, hne, hdup],
      by simp [send_message_batch, hne, hdup]⟩
  · intro h
    obtain ⟨dup, hdup⟩ := firstDuplicate_some_of_not_nodup h
    cases hf : firstDuplicateReceipt [] delEntries with
    | some uid =>
      exact ⟨uid, by simp [delete_message_batch, hf],
        by simp [delete_message_batch, hf]⟩
    | none =>
      exact ⟨dup, by simp [delete_message_batch, hf, hdup],
        by simp [delete_message_batch, hf, hdup]⟩
  · intro h
    obtain ⟨dup, hdup⟩ := firstDuplicate_some_of_not_nodup h
    exact ⟨dup, by simp [change_message_visibility_batch, hdup],
      by simp [change_message_visibility_batch, hdup]⟩

/-- Witness for C2: a send batch with two entries both carrying id dup is
aborted with the state unchanged. -/
theorem C2_batch_duplicate_ids_witness :
    (¬ (([⟨"dup", "x", none, none, none⟩,
          ⟨"dup", "y", none, none, none⟩] : List SendMessageBatchEntry).map
        SendMessageBatchEntry.userId).Nodup) ∧
    (∃ uid, (send_message_batch (initState false false none) 0
        [⟨"dup", "x", none, none, none⟩, ⟨"dup", "y", none, none, none⟩]).1
        = .error (.batchEntryIdsNotDistinct uid) ∧
      (send_message_batch (initState false false none) 0
        [⟨"dup", "x", none, none, none⟩, ⟨"dup", "y", none, none, none⟩]).2
        = initState false false none) :=
  ⟨by decide,
    (C2_batch_duplicate_ids (initState false false none) 0
      [⟨"dup", "x", none, none, none⟩, ⟨"dup", "y", none, none, none⟩] [] []).1
      (by decide)⟩

/-- C3: whenever one of the batch calls raises a batch-wide violation
(duplicate entry ids, or the empty batch raising EmptyBatchRequest), the
queue state — backlog, in-flight set and dedup window included — is
returned unchanged and no per-entry result is produced; and a send batch
with no entries does raise EmptyBatchRequest. -/
theorem C3_batch_abort_leaves_state_unchanged (s : QueueState) (now : Nat)
    (sendEntries : List SendMessageBatchEntry)
    (delEntries : List DeleteMessageBatchEntry)
    (cmvEntries : List CmvBatchEntry) :
    (∀ e, (send_message_batch s now sendEntries).1 = .error e →
      (send_message_batch s now sendEntries).2 = s) ∧
    (∀ e, (delete_message_batch s delEntries).1 = .error e →
      (delete_message_batch s delEntries).2 = s) ∧
    (∀ e, (change_message_visibility_batch s now cmvEntries).1 = .error e →
      (change_message_visibility_batch s now cmvEntries).2 = s) ∧
    send_message_batch s now [] = (.error .emptyBatchRequest, s) := by
  refine ⟨?_, ?_, ?_, rfl⟩
  · intro e he
    unfold send_message_batch at he ⊢
    by_cases hne : sendEntries.isEmpty
    · simp [hne]
    · simp only [hne, Bool.false_eq_true, if_false] at he ⊢
      cases hf : firstDuplicate [] (sendEntries.map SendMessageBatchEntry.userId) with
      | some dup => simp [hf]
      | none => rw [hf] at he; simp at he
  · intro e he
    unfold delete_message_batch at he ⊢
    cases hr : firstDuplicateReceipt [] delEntries with
    | some uid => simp
    | none =>
      cases hf : firstDuplicate [] (delEntries.map DeleteMessageBatchEntry.userId) with
      | some dup => simp
      | none => simp [hr, hf] at he
  · intro e he
    unfold change_message_visibility_batch at he ⊢
    cases hf : firstDuplicate [] (cmvEntries.map CmvBatchEntry.userId) with
    | some dup => simp
    | none => simp [hf] at he

/-- Witness for C3: a delete batch aborted by its duplicate receipt check
leaves the state unchanged. -/
theorem C3_batch_abort_leaves_state_unchanged_witness :
    ((delete_message_batch (initState false false none)
        [⟨"a", 1⟩, ⟨"b", 1⟩]).1 = .error (.batchEntryIdsNotDistinct "b")) ∧
    ((delete_message_batch (initState false false none)
        [⟨"a", 1⟩, ⟨"b", 1⟩]).2 = initState false false none) :=
  ⟨by decide,
    (C3_batch_abort_leaves_state_unchanged (initState false false none) 0
      [] [⟨"a", 1⟩, ⟨"b", 1⟩] []).2.1
      (.batchEntryIdsNotDistinct "b") (by decide)⟩

/-- C5: a delete_message_batch whose entries contain two entries with equal
receipt-handle values but different entry ids fails as a whole with
BatchEntryIdsNotDistinct (the receipt_seen loop fires before the backend is
invoked), so the queue state is unchanged and no entry is deleted. -/
theorem C5_delete_batch_duplicate_receipts (s : QueueState)
    (pre mid post : List DeleteMessageBatchEntry)
    (e1 e2 : DeleteMessageBatchEntry)
    (hr : e1.receiptHandle = e2.receiptHandle) (hid : e1.userId ≠ e2.userId) :
    ∃ uid,
      (delete_message_batch s (pre ++ e1 :: mid ++ e2 :: post)).1
        = .error (.batchEntryIdsNotDistinct uid) ∧
      (delete_message_batch s (pre ++ e1 :: mid ++ e2 :: post)).2 = s := by
  cases hf : firstDuplicateReceipt [] (pre ++ e1 :: mid ++ e2 :: post) with
  | some uid =>
    refine ⟨uid, ?_, ?_⟩ <;>
      · unfold delete_message_batch
        rw [hf]
  | none =>
    exfalso
    have hnd := (receipts_nodup_of_firstDuplicateReceipt_none [] _ hf).1
    simp only [List.map_append, List.map_cons] at hnd
    obtain ⟨hnotmem, -⟩ := List.nodup_cons.mp (List.nodup_middle.mp hnd)
    apply hnotmem
    apply List.mem_append_left
    apply List.mem_append_right
    rw [← hr]
    exact List.mem_cons_self _ _

/-- Witness for C5: two entries with ids a and b but the same receipt
handle abort the batch with the state unchanged. -/
theorem C5_delete_batch_duplicate_receipts_witness :
    (( ⟨"a", 1⟩ : DeleteMessageBatchEntry).receiptHandle
        = (⟨"b", 1⟩ : DeleteMessageBatchEntry).receiptHandle) ∧
    ((⟨"a", 1⟩ : DeleteMessageBatchEntry).userId
        ≠ (⟨"b", 1⟩ : DeleteMessageBatchEntry).userId) ∧
    (∃ uid, (delete_message_batch (initState false false none)
        ([] ++ (⟨"a", 1⟩ : DeleteMessageBatchEntry) :: [] ++ ⟨"b", 1⟩ :: [])).1
        = .error (.batchEntryIdsNotDistinct uid) ∧
      (delete_message_batch (initState false false none)
        ([] ++ (⟨"a", 1⟩ : DeleteMessageBatchEntry) :: [] ++ ⟨"b", 1⟩ :: [])).2
        = initState false false none) :=
  ⟨rfl, by decide,
    C5_delete_batch_duplicate_receipts (initState false false none) [] [] []
      ⟨"a", 1⟩ ⟨"b", 1⟩ rfl (by decide)⟩

theorem isFifo_sendMsg (s : QueueState) (body : String)
    (groupId dedupId : Option String) (delay now : Nat) :
    (sendMsg s body groupId dedupId delay now).2.isFifo = s.isFifo := by
  unfold sendMsg
  split
  · split
    · rfl
    · rfl
  · split
    · rfl
    · rfl

theorem contentBasedDedup_sendMsg (s : QueueState) (body : String)
    (groupId dedupId : Option String) (delay now : Nat) :
    (sendMsg s body groupId dedupId delay now).2.contentBasedDedup
      = s.contentBasedDedup := by
  unfold sendMsg
  split
  · split
    · rfl
    · rfl
  · split
    · rfl
    · rfl

theorem missingDedupKey_sendMsg (s : QueueState) (body : String)
    (groupId dedupId : Option String) (delay now : Nat)
    (e : SendMessageBatchEntry) :
    missingDedupKey (sendMsg s body groupId dedupId delay now).2 e
      = missingDedupKey s e := by
  unfold missingDedupKey dedupKeyOf
  rw [isFifo_sendMsg, contentBasedDedup_sendMsg]

theorem sendMsg_none_iff (s : QueueState) (e : SendMessageBatchEntry)
    (delay now : Nat) :
    (sendMsg s e.messageBody e.messageGroupId e.messageDeduplicationId delay now).1
        = none
      ↔ missingDedupKey s e = true := by
  unfold missingDedupKey sendMsg
  cases hk : dedupKeyOf s e.messageBody e.messageDeduplicationId with
  | some key => cases hfd : findDedup s.dedupWindow key now <;> simp [hfd]
  | none => by_cases hf : s.isFifo <;> simp [hf]

theorem send_entries_loop_spec (now : Nat) :
    ∀ (entries : List SendMessageBatchEntry) (s : QueueState),
      (∀ e ∈ entries, invalidDelay e.delaySeconds = true →
        e ∈ (send_entries_loop now s entries).1.2) ∧
      (∀ e ∈ entries, invalidDelay e.delaySeconds = false →
        missingDedupKey s e = true → e ∈ (send_entries_loop now s entries).1.2) ∧
      (∀ e ∈ entries, invalidDelay e.delaySeconds = false →
        missingDedupKey s e = false →
        ∃ r ∈ (send_entries_loop now s entries).1.1, r.userId = e.userId) := by
  intro entries
  induction entries with
  | nil => intro s; refine ⟨?_, ?_, ?_⟩ <;> intro e he <;> cases he
  | cons a t ih =>
    intro s
    by_cases hd : invalidDelay a.delaySeconds = true
    · have heq : send_entries_loop now s (a :: t)
          = (((send_entries_loop now s t).1.1, a :: (send_entries_loop now s t).1.2),
            (send_entries_loop now s t).2) := by
        simp [send_entries_loop, hd]
      obtain ⟨ih1, ih2, ih3⟩ := ih s
      refine ⟨?_, ?_, ?_⟩
      · intro e he hde
        rcases List.mem_cons.mp he with rfl | het
        · rw [heq]; exact List.mem_cons_self _ _
        · rw [heq]; exact List.mem_cons_of_mem _ (ih1 e het hde)
      · intro e he hde hmk
        rcases List.mem_cons.mp he with rfl | het
        · simp [hd] at hde
        · rw [heq]; exact List.mem_cons_of_mem _ (ih2 e het hde hmk)
      · intro e he hde hmk
        rcases List.mem_cons.mp he with rfl | het
        · simp [hd] at hde
        · rw [heq]; exact ih3 e het hde hmk
    · cases hsm : sendMsg s a.messageBody a.messageGroupId a.messageDeduplicationId
          ((a.delaySeconds.getD 0).toNat) now with
      | mk r1 s2 =>
        have hflags : ∀ e, missingDedupKey s2 e = missingDedupKey s e := by
          intro e
          have h0 := missingDedupKey_sendMsg s a.messageBody a.messageGroupId
            a.messageDeduplicationId ((a.delaySeconds.getD 0).toNat) now e
          rw [hsm] at h0
          exact h0
        have hiff := sendMsg_none_iff s a ((a.delaySeconds.getD 0).toNat) now
        rw [hsm] at hiff
        obtain ⟨ih1, ih2, ih3⟩ := ih s2
        by_cases hmka : missingDedupKey s a = true
        · have hr1 : r1 = none := hiff.mpr hmka
          subst hr1
          have heq : send_entries_loop now s (a :: t)
              = (((send_entries_loop now s2 t).1.1,
                  a :: (send_entries_loop now s2 t).1.2),
                (send_entries_loop now s2 t).2) := by
            simp [send_entries_loop, hd, hsm]
          refine ⟨?_, ?_, ?_⟩
          · intro e he hde
            rcases List.mem_cons.mp he with rfl | het
            · exact absurd hde hd
            · rw [heq]; exact List.mem_cons_of_mem _ (ih1 e het hde)
          · intro e he hde hmk
            rcases List.mem_cons.mp he with rfl | het
            · rw [heq]; exact List.mem_cons_self _ _
            · rw [heq]
              exact List.mem_cons_of_mem _ (ih2 e het hde (by rw [hflags e]; exact hmk))
          · intro e he hde hmk
            rcases List.mem_cons.mp he with rfl | het
            · rw [hmka] at hmk; cases hmk
            · rw [heq]; exact ih3 e het hde (by rw [hflags e]; exact hmk)
        · obtain ⟨mid, hr1⟩ : ∃ mid, r1 = some mid := by
            cases hr : r1 with
            | none => exact absurd (hiff.mp hr) hmka
            | some mid => exact ⟨mid, rfl⟩
          subst hr1
          have heq : send_entries_loop now s (a :: t)
              = ((({ userId := a.userId, msgId := mid } : SendMessageBatchResultEntry)
                    :: (send_entries_loop now s2 t).1.1,
                  (send_entries_loop now s2 t).1.2),
                (send_entries_loop now s2 t).2) := by
            simp [send_entries_loop, hd, hsm]
          refine ⟨?_, ?_, ?_⟩
          · intro e he hde
            rcases List.mem_cons.mp he with rfl | het
            · exact absurd hde hd
            · rw [heq]; exact ih1 e het hde
          · intro e he hde hmk
            rcases List.mem_cons.mp he with rfl | het
            · exact absurd hmk hmka
            · rw [heq]; exact ih2 e het hde (by rw [hflags e]; exact hmk)
          · intro e he hde hmk
            rcases List.mem_cons.mp he with rfl | het
            · refine ⟨{ userId := e.userId, msgId := mid }, ?_, rfl⟩
              rw [heq]
              exact List.mem_cons_self _ _
            · obtain ⟨r, hrmem, hruid⟩ := ih3 e het hde (by rw [hflags e]; exact hmk)
              refine ⟨r, ?_, hruid⟩
              rw [heq]
              exact List.mem_cons_of_mem _ hrmem

/-- Counterexample for C6 as stated: on a FIFO queue without content-based
dedup, a batch with one oversized-delay entry and one valid-delay entry
lacking a deduplication id yields an empty success list — the valid-delay
entry is reported in the failure list (MissingDeduplicationId, spec 4.1 and
section 7), not "in the success list as an ordinary send" as the claim
requires of every entry with an admissible delay. -/
theorem C6_send_batch_per_entry_delay_counterexample :
    invalidDelay ((⟨"nokey", "y", none, some "g", none⟩
        : SendMessageBatchEntry).delaySeconds) = false ∧
    (send_message_batch (initState true false none) 0
        [⟨"bad", "x", some 1800, none, none⟩,
         ⟨"nokey", "y", none, some "g", none⟩]).1
      = .ok ([],
        [⟨"bad", "true", "InvalidParameterValue", DELAY_ERROR_MESSAGE⟩,
         ⟨"nokey", "true", "InvalidParameterValue", DELAY_ERROR_MESSAGE⟩]) :=
  ⟨rfl, rfl⟩

/-- C6 (amended): in every send batch with distinct entry ids and at least
one entry, an entry whose delay exceeds the queue/system maximum is
reported in the returned failure list with code InvalidParameterValue and
sender fault "true" without aborting its siblings; every sibling whose
ordinary send succeeds is reported in the success list under its entry id,
while a FIFO entry lacking a deduplication key is reported in the failure
list instead. -/
theorem C6_send_batch_per_entry_delay_amended (s : QueueState) (now : Nat)
    (entries : List SendMessageBatchEntry)
    (hnodup : (entries.map SendMessageBatchEntry.userId).Nodup)
    (hne : entries ≠ []) :
    ∃ succ errs,
      (send_message_batch s now entries).1 = .ok (succ, errs) ∧
      (∀ e ∈ entries, invalidDelay e.delaySeconds = true →
        ({ userId := e.userId, senderFault := "true", code := "InvalidParameterValue",
           message := DELAY_ERROR_MESSAGE } : BatchResultErrorEntry) ∈ errs) ∧
      (∀ e ∈ entries, invalidDelay e.delaySeconds = false →
        missingDedupKey s e = false →
        ∃ r ∈ succ, r.userId = e.userId) ∧
      (∀ e ∈ entries, invalidDelay e.delaySeconds = false →
        missingDedupKey s e = true →
        ({ userId := e.userId, senderFault := "true", code := "InvalidParameterValue",
           message := DELAY_ERROR_MESSAGE } : BatchResultErrorEntry) ∈ errs) := by
  have hdup : firstDuplicate [] (entries.map SendMessageBatchEntry.userId) = none :=
    firstDuplicate_none_of_nodup [] _ hnodup (by simp)
  have hempty : entries.isEmpty = false := by
    cases entries with
    | nil => exact absurd rfl hne
    | cons a t => rfl
  obtain ⟨h1, h2, h3⟩ := send_entries_loop_spec now entries s
  refine ⟨(send_entries_loop now s entries).1.1,
    (send_entries_loop now s entries).1.2.map (fun e =>
      { userId := e.userId, senderFault := "true", code := "InvalidParameterValue",
        message := DELAY_ERROR_MESSAGE }), ?_, ?_, ?_, ?_⟩
  · simp [send_message_batch, hempty, hdup]
  · intro e he hde
    exact List.mem_map.mpr ⟨e, h1 e he hde, rfl⟩
  · exact h3
  · intro e he hde hmk
    exact List.mem_map.mpr ⟨e, h2 e he hde hmk, rfl⟩

/-- Witness for the amended C6: the FIFO batch of the counterexample,
with distinct ids and nonempty, satisfies the amended conclusion. -/
theorem C6_send_batch_per_entry_delay_amended_witness :
    (([⟨"bad", "x", some 1800, none, none⟩, ⟨"nokey", "y", none, some "g", none⟩]
        : List SendMessageBatchEntry).map SendMessageBatchEntry.userId).Nodup ∧
    ([⟨"bad", "x", some 1800, none, none⟩, ⟨"nokey", "y", none, some "g", none⟩]
        : List SendMessageBatchEntry) ≠ [] ∧
    (∃ succ errs,
      (send_message_batch (initState true false none) 0
        [⟨"bad", "x", some 1800, none, none⟩,
         ⟨"nokey", "y", none, some "g", none⟩]).1 = .ok (succ, errs) ∧
      (∀ e ∈ ([⟨"bad", "x", some 1800, none, none⟩,
          ⟨"nokey", "y", none, some "g", none⟩] : List SendMessageBatchEntry),
        invalidDelay e.delaySeconds = true →
        ({ userId := e.userId, senderFault := "true", code := "InvalidParameterValue",
           message := DELAY_ERROR_MESSAGE } : BatchResultErrorEntry) ∈ errs) ∧
      (∀ e ∈ ([⟨"bad", "x", some 1800, none, none⟩,
          ⟨"nokey", "y", none, some "g", none⟩] : List SendMessageBatchEntry),
        invalidDelay e.delaySeconds = false →
        missingDedupKey (initState true false none) e = false →
        ∃ r ∈ succ, r.userId = e.userId) ∧
      (∀ e ∈ ([⟨"bad", "x", some 1800, none, none⟩,
          ⟨"nokey", "y", none, some "g", none⟩] : List SendMessageBatchEntry),
        invalidDelay e.delaySeconds = false →
        missingDedupKey (initState true false none) e = true →
        ({ userId := e.userId, senderFault := "true", code := "InvalidParameterValue",
           message := DELAY_ERROR_MESSAGE } : BatchResultErrorEntry) ∈ errs)) :=
  ⟨by decide, by decide,
    C6_send_batch_per_entry_delay_amended (initState true false none) 0
      [⟨"bad", "x", some 1800, none, none⟩, ⟨"nokey", "y", none, some "g", none⟩]
      (by decide) (by decide)⟩

/-! The EFS backend, embedded from src/moto/efs/models.py. The info_json
dictionaries are modelled by records carrying the fields the describe logic
reads. -/

/-- Description record of a file system (the fields read by
describe_file_systems). -/
structure FileSystemJson where
  fileSystemId : String
  creationToken : String
deriving DecidableEq, Repr

/-- Description record of a mount target (the fields read by
describe_mount_targets). -/
structure MountTargetJson where
  mountTargetId : String
  fileSystemId : String
deriving DecidableEq, Repr

/-- Errors raised by the EFS describe operations: BadRequest,
FileSystemNotFound, the uncaught KeyError of an unknown mount target id,
and the AssertionError of the unsupported access-point branch. -/
inductive EfsError where
  | badRequest (msg : String)
  | fileSystemNotFound (fsid : String)
  | keyError
  | assertionError
deriving DecidableEq, Repr

/-- State of EFSBackend (models.py lines 236-243): the file systems, the
mount targets, and the next_markers mapping. The single Python next_markers
dict stores corpora of both kinds; it is modelled as two typed association
lists. -/
structure EFSState where
  fileSystems : List FileSystemJson
  mountTargets : List MountTargetJson
  nextMarkersFs : List (String × List FileSystemJson)
  nextMarkersMt : List (String × List MountTargetJson)
deriving DecidableEq, Repr

/-- Marker token for a file-system result fragment. The source uses
str(hash(json.dumps(new_corpus))), an opaque deterministic function of the
fragment, modelled by a deterministic encoding. -/
def markerOfFs (corpus : List FileSystemJson) : String :=
  String.intercalate "," (corpus.map FileSystemJson.fileSystemId)

/-- Marker token for a mount-target result fragment, as markerOfFs. -/
def markerOfMt (corpus : List MountTargetJson) : String :=
  String.intercalate "," (corpus.map MountTargetJson.mountTargetId)

/-- Lookup in the modelled next_markers mapping. -/
def lookupMarker {α : Type} (markers : List (String × α)) (m : String) : Option α :=
  match markers.find? (fun p => p.1 == m) with
  | some p => some p.2
  | none => none

/-- Embeds EFSBackend._mark_description (models.py lines 251-258): when
max_items is smaller than the corpus length, the tail from max_items on is
stored under a fresh marker, which is returned; otherwise the marker is
None and nothing is stored. -/
def mark_description {α : Type} (markerOf : List α → String)
    (markers : List (String × List α)) (corpus : List α) (maxItems : Nat) :
    Option String × List (String × List α) :=
  if maxItems < corpus.length then
    let newCorpus := corpus.drop maxItems
    let nextMarker := markerOf newCorpus
    (some nextMarker, (nextMarker, newCorpus) :: markers)
  else (none, markers)

/-- Truthiness of an optional string parameter, as Python bool(): absent or
empty means not given. -/
def truthy : Option String → Bool
  | none => false
  | some s => !s.isEmpty

/-- Common tail of describe_file_systems (models.py lines 307-310): the page
is corpus[:max_items], and _mark_description is called on that
already-truncated page, as in the source. -/
def finishFsDescription (st : EFSState) (corpus : List FileSystemJson)
    (maxItems : Nat) :
    Except EfsError (Option String × List FileSystemJson) × EFSState :=
  let fileSystems := corpus.take maxItems
  let r := mark_description markerOfFs st.nextMarkersFs fileSystems maxItems
  (.ok (r.1, fileSystems), { st with nextMarkersFs := r.2 })

/-- Embeds EFSBackend.describe_file_systems (models.py lines 281-310):
corpus selection by creation token, file system id, marker, or everything;
then the page is cut to max_items and marked. -/
def describe_file_systems (st : EFSState) (marker : Option String)
    (maxItems : Nat) (creationToken fileSystemId : Option String) :
    Except EfsError (Option String × List FileSystemJson) × EFSState :=
  if truthy creationToken && truthy fileSystemId then
    (.error (.badRequest
      "Request cannot contain both a file system ID and a creation token."), st)
  else if truthy creationToken then
    finishFsDescription st
      (st.fileSystems.filter (fun fs => fs.creationToken == creationToken.getD ""))
      maxItems
  else if truthy fileSystemId then
    match st.fileSystems.find? (fun fs => fs.fileSystemId == fileSystemId.getD "") with
    | none => (.error (.fileSystemNotFound (fileSystemId.getD "")), st)
    | some fs => finishFsDescription st [fs] maxItems
  else
    match marker with
    | some m =>
      match lookupMarker st.nextMarkersFs m with
      | none => (.error (.badRequest "Invalid Marker"), st)
      | some corpus => finishFsDescription st corpus maxItems
    | none => finishFsDescription st st.fileSystems maxItems

/-- Common tail of describe_mount_targets (models.py lines 372-375), cutting
and marking the already-truncated page exactly as finishFsDescription. -/
def finishMtDescription (st : EFSState) (corpus : List MountTargetJson)
    (maxItems : Nat) :
    Except EfsError (Option String × List MountTargetJson) × EFSState :=
  let mountTargets := corpus.take maxItems
  let r := mark_description markerOfMt st.nextMarkersMt mountTargets maxItems
  (.ok (r.1, mountTargets), { st with nextMarkersMt := r.2 })

/-- Corpus selection of describe_mount_targets (models.py lines 343-356),
run after the exclusive-or check: the mount targets of the selected file
system (FileSystemNotFound when absent), the single mount target of the
given id (an unknown id is an uncaught KeyError), or — access point only —
the assertion failure of the unsupported branch. -/
def mountTargetCorpus (st : EFSState) (fileSystemId mountTargetId : Option String) :
    Except EfsError (List MountTargetJson) :=
  if truthy fileSystemId then
    if st.fileSystems.any (fun fs => fs.fileSystemId == fileSystemId.getD "") then
      .ok (st.mountTargets.filter (fun mt => mt.fileSystemId == fileSystemId.getD ""))
    else .error (.fileSystemNotFound (fileSystemId.getD ""))
  else if truthy mountTargetId then
    match st.mountTargets.find? (fun mt => mt.mountTargetId == mountTargetId.getD "") with
    | some mt => .ok [mt]
    | none => .error .keyError
  else .error .assertionError

/-- Embeds EFSBackend.describe_mount_targets (models.py lines 337-375): the
three selector parameters must satisfy a three-way exclusive-or (left
associated, as the Python bool(a) ^ bool(b) ^ bool(c)), so a call giving
none or exactly two of them is a BadRequest while one or all three pass;
then the corpus is selected, a given marker restricts it to the
intersection with the stored fragment, and the page is cut and marked. -/
def describe_mount_targets (st : EFSState) (maxItems : Nat)
    (fileSystemId mountTargetId accessPointId marker : Option String) :
    Except EfsError (Option String × List MountTargetJson) × EFSState :=
  if !(Bool.xor (Bool.xor (truthy fileSystemId) (truthy mountTargetId))
      (truthy accessPointId)) then
    (.error (.badRequest "Must specify exactly one mutually exclusive parameter."), st)
  else
    match mountTargetCorpus st fileSystemId mountTargetId with
    | .error e => (.error e, st)
    | .ok corpus =>
      match marker with
      | none => finishMtDescription st corpus maxItems
      | some m =>
        match lookupMarker st.nextMarkersMt m with
        | none => (.error (.badRequest "Invalid Marker"), st)
        | some marked =>
          let corpusIds := corpus.map MountTargetJson.mountTargetId
          let markedIds := marked.map MountTargetJson.mountTargetId
          let mtIds := corpusIds.filter (fun i => markedIds.contains i)
          let corpus2 := (marked ++ corpus).filter
            (fun mt => mtIds.contains mt.mountTargetId)
          finishMtDescription st corpus2 maxItems

/-- Next marker of a successful describe result. -/
def resultMarker {α : Type} (r : Except EfsError (Option String × List α)) :
    Option String :=
  match r with
  | .ok pr => pr.1
  | .error _ => none

theorem mark_description_take {α : Type} (markerOf : List α → String)
    (markers : List (String × List α)) (corpus : List α) (maxItems : Nat) :
    mark_description markerOf markers (corpus.take maxItems) maxItems
      = (none, markers) := by
  unfold mark_description
  rw [if_neg]
  rw [List.length_take]
  exact not_lt.mpr (Nat.min_le_left _ _)

theorem finishFs_marker (st : EFSState) (corpus : List FileSystemJson)
    (maxItems : Nat) :
    finishFsDescription st corpus maxItems
      = (.ok (none, corpus.take maxItems), st) := by
  unfold finishFsDescription
  dsimp only
  rw [mark_description_take]

theorem finishMt_marker (st : EFSState) (corpus : List MountTargetJson)
    (maxItems : Nat) :
    finishMtDescription st corpus maxItems
      = (.ok (none, corpus.take maxItems), st) := by
  unfold finishMtDescription
  dsimp only
  rw [mark_description_take]

/-- Concrete backend state with two file systems, used to exercise the
paging bug. -/
def twoFsState : EFSState :=
  { fileSystems := [⟨"fs-1", "t1"⟩, ⟨"fs-2", "t2"⟩]
    mountTargets := []
    nextMarkersFs := []
    nextMarkersMt := [] }

/-- C8: contrary to the claim, the describe operations never return a next
marker: the source passes the already-truncated page corpus[:max_items] to
_mark_description, whose test max_items < len(page) therefore never holds,
so next_markers is never populated and the state is returned unchanged. On
the concrete state with two file systems and max_items 1 the call returns
next_marker None although the filtered corpus holds two entries, and
presenting any marker afterwards fails with BadRequest Invalid Marker. The
repository's own test test_describe_mount_targets_paging expects a
NextMarker in this situation. -/
theorem C8_describe_marker_always_none :
    (∀ st marker maxItems creationToken fileSystemId,
      resultMarker
          (describe_file_systems st marker maxItems creationToken fileSystemId).1
        = none ∧
      (describe_file_systems st marker maxItems creationToken fileSystemId).2 = st) ∧
    (∀ st maxItems fileSystemId mountTargetId accessPointId marker,
      resultMarker
          (describe_mount_targets st maxItems fileSystemId mountTargetId
            accessPointId marker).1
        = none ∧
      (describe_mount_targets st maxItems fileSystemId mountTargetId
        accessPointId marker).2 = st) ∧
    (describe_file_systems twoFsState none 1 none none).1
      = .ok (none, [⟨"fs-1", "t1"⟩]) ∧
    (describe_file_systems twoFsState (some "m") 1 none none).1
      = .error (.badRequest "Invalid Marker") := by
  refine ⟨?_, ?_, ?_, ?_⟩
  · intro st marker maxItems creationToken fileSystemId
    unfold describe_file_systems
    split
    · exact ⟨rfl, rfl⟩
    · split
      · rw [finishFs_marker]; exact ⟨rfl, rfl⟩
      · split
        · split
          · exact ⟨rfl, rfl⟩
          · rw [finishFs_marker]; exact ⟨rfl, rfl⟩
        · split
          · split
            · exact ⟨rfl, rfl⟩
            · rw [finishFs_marker]; exact ⟨rfl, rfl⟩
          · rw [finishFs_marker]; exact ⟨rfl, rfl⟩
  · intro st maxItems fileSystemId mountTargetId accessPointId marker
    unfold describe_mount_targets
    split
    · exact ⟨rfl, rfl⟩
    · cases hc : mountTargetCorpus st fileSystemId mountTargetId with
      | error e => exact ⟨rfl, rfl⟩
      | ok corpus =>
        dsimp only
        cases marker with
        | none =>
          dsimp only
          rw [finishMt_marker]
          exact ⟨rfl, rfl⟩
        | some m =>
          dsimp only
          cases hl : lookupMarker st.nextMarkersMt m with
          | none => exact ⟨rfl, rfl⟩
          | some marked =>
            dsimp only
            rw [finishMt_marker]
            exact ⟨rfl, rfl⟩
  · rw [show (describe_file_systems twoFsState none 1 none none)
        = finishFsDescription twoFsState twoFsState.fileSystems 1 from rfl,
      finishFs_marker]
    rfl
  · rfl

/-- C10: describe_mount_targets rejects with BadRequest every request that
supplies none of, or exactly two of, the three selector parameters
(file_system_id, mount_target_id, access_point_id), while a request
supplying all three passes the three-way exclusive-or check and is handled
exactly as a file_system_id lookup. -/
theorem C10_mount_target_selector_xor (st : EFSState) (maxItems : Nat)
    (f m a : String) (marker : Option String)
    (hf : f.isEmpty = false) (hm : m.isEmpty = false) (ha : a.isEmpty = false) :
    describe_mount_targets st maxItems none none none marker
      = (.error (.badRequest "Must specify exactly one mutually exclusive parameter."), st) ∧
    describe_mount_targets st maxItems (some f) (some m) none marker
      = (.error (.badRequest "Must specify exactly one mutually exclusive parameter."), st) ∧
    describe_mount_targets st maxItems (some f) none (some a) marker
      = (.error (.badRequest "Must specify exactly one mutually exclusive parameter."), st) ∧
    describe_mount_targets st maxItems none (some m) (some a) marker
      = (.error (.badRequest "Must specify exactly one mutually exclusive parameter."), st) ∧
    describe_mount_targets st maxItems (some f) (some m) (some a) marker
      = describe_mount_targets st maxItems (some f) none none marker := by
  refine ⟨?_, ?_, ?_, ?_, ?_⟩ <;>
    simp [describe_mount_targets, mountTargetCorpus, truthy, hf, hm, ha]

/-- Witness for C10 at concrete parameters: two supplied selectors are
rejected and all three behave as the file-system lookup. -/
theorem C10_mount_target_selector_xor_witness :
    ("fs-1" : String).isEmpty = false ∧
    ("fsmt-1" : String).isEmpty = false ∧
    ("ap-1" : String).isEmpty = false ∧
    describe_mount_targets twoFsState 5 (some "fs-1") (some "fsmt-1") none none
      = (.error (.badRequest "Must specify exactly one mutually exclusive parameter."),
        twoFsState) ∧
    describe_mount_targets twoFsState 5 (some "fs-1") (some "fsmt-1") (some "ap-1") none
      = describe_mount_targets twoFsState 5 (some "fs-1") none none none :=
  ⟨rfl, rfl, rfl,
    (C10_mount_target_selector_xor twoFsState 5 "fs-1" "fsmt-1" "ap-1" none
      rfl rfl rfl).2.1,
    (C10_mount_target_selector_xor twoFsState 5 "fs-1" "fsmt-1" "ap-1" none
      rfl rfl rfl).2.2.2.2⟩

end Moto
